import Mathlib

/-!
Shallow embedding of the gh-utils branch manager
(`src/gh_branch_manager/github_api.py` and `src/gh_branch_manager/app.py`).

Remote interaction (the `gh` subprocess calls) is abstracted by a `Gateway`
oracle recording the outcome each call would have; every function of the
source that consumes such a call is translated as a pure function of the
oracle. Machine-level details that the claims do not touch (terminal
rendering, cursor handling, CSS) are omitted; every data path named by a
claim is translated from the source.
-/

/-- `MergeStatus` enum of `github_api.py`. -/
inductive MergeStatus
  | unknown
  | merged
  | not_merged
  | fetching
deriving DecidableEq, Repr

/-- `PRStatus` enum of `github_api.py`. -/
inductive PRStatus
  | unknown
  | closed
  | not_closed
  | fetching
deriving DecidableEq, Repr

/-- `BranchInfo` dataclass of `github_api.py`, with the same field defaults. -/
structure BranchInfo where
  name : String
  status : String
  merge_status : MergeStatus := MergeStatus.unknown
  pr_status : PRStatus := PRStatus.unknown
  is_protected : Bool := false
  is_default : Bool := false
  ahead_by : Option Nat := none
  behind_by : Option Nat := none
deriving DecidableEq, Repr

/-- `BranchInfo.is_merged` property. -/
def BranchInfo.is_merged (b : BranchInfo) : Bool := b.merge_status == MergeStatus.merged

/-- `BranchInfo.is_pr_closed` property. -/
def BranchInfo.is_pr_closed (b : BranchInfo) : Bool := b.pr_status == PRStatus.closed

/-- One remote `gh` invocation, by kind. -/
inductive RemoteCall
  | repoNameCall
  | defaultBranchCall
  | listBranchesCall
  | mergedListCall
  | closedListCall
  | compareCall (branch : String)
  | deleteCall (branch : String)
deriving DecidableEq, Repr

/-- Outcome of the `gh api -X DELETE` call in `delete_branch`. -/
inductive DeleteOutcome
  | ok
  | refMissing
  | otherFail (stderr : String)
  | timedOut
deriving DecidableEq, Repr

/-- Oracle fixing the outcome of every remote call a run would make.
`none` stands for the failure of that call (non-zero exit status or timeout,
which the source treats alike on each of these paths). `branchInfoCrash`
models the `except` arm of the stage-5 loop (`future.result()` raising). -/
structure Gateway where
  repoNameResult : Option String
  defaultBranchResult : Option String
  listResult : Option (List String)
  mergedResult : Option (List String)
  closedResult : Option (List String)
  compareResult : String → Option (String × Option Nat × Option Nat)
  branchInfoCrash : String → Bool
  deleteResult : String → DeleteOutcome

/-- Mutable fields of `GitHubBranchManager`. The Python sets
`_merged_branches` and `_closed_pr_branches` are modelled as lists; only
membership and emptiness are ever consumed. -/
structure ManagerState where
  repo_full : Option String := none
  default_branch : Option String := none
  branches : List BranchInfo := []
  merged_branches : List String := []
  closed_pr_branches : List String := []
deriving DecidableEq, Repr

/-- The five alternatives of `DEFAULT_PROTECTED_REGEX`. -/
def DEFAULT_PROTECTED_NAMES : List String :=
  ["main", "master", "staging", "dev", "develop"]

/-- `re.match(DEFAULT_PROTECTED_REGEX, name)`: the pattern is anchored on both
sides, so it matches exactly the five literal alternatives. -/
def matchesProtectedRegex (name : String) : Bool :=
  DEFAULT_PROTECTED_NAMES.contains name

/-- `get_repo_info`: two `gh repo view` calls; a failure of either raises,
which `fetch_branches_background` turns into the single error status line.
Returns the updated manager state (or the exception message) together with
the remote calls issued. -/
def get_repo_info (gw : Gateway) (ms : ManagerState) :
    Except String ManagerState × List RemoteCall :=
  match gw.repoNameResult with
  | none => (Except.error "Failed to get repo info", [RemoteCall.repoNameCall])
  | some rf =>
    match gw.defaultBranchResult with
    | none =>
      (Except.error "Failed to get default branch",
       [RemoteCall.repoNameCall, RemoteCall.defaultBranchCall])
    | some db =>
      (Except.ok { ms with repo_full := some rf, default_branch := some db },
       [RemoteCall.repoNameCall, RemoteCall.defaultBranchCall])

/-- `_fetch_all_branches`: on success the stripped stdout lines; on a
non-zero exit status or a timeout it returns the empty list. -/
def fetch_all_branches (gw : Gateway) : List String :=
  gw.listResult.getD []

/-- `_fetch_merged_branches`: on success replace `_merged_branches` with the
fetched set; on failure or timeout the field is left untouched. -/
def fetch_merged_branches (gw : Gateway) (ms : ManagerState) : ManagerState :=
  match gw.mergedResult with
  | some lines => { ms with merged_branches := lines }
  | none => ms

/-- `_fetch_closed_pr_branches`: same shape as `_fetch_merged_branches`. -/
def fetch_closed_pr_branches (gw : Gateway) (ms : ManagerState) : ManagerState :=
  match gw.closedResult with
  | some lines => { ms with closed_pr_branches := lines }
  | none => ms

/-- `_get_compare_status`: every failure mode (non-zero exit, timeout, parse
error) is caught and collapsed to `("unknown", None, None)`. -/
def get_compare_status (gw : Gateway) (name : String) :
    String × Option Nat × Option Nat :=
  match gw.compareResult name with
  | some r => r
  | none => ("unknown", none, none)

/-- Whether `_get_branch_info` reaches the `_get_compare_status` call for
`name`: it short-circuits when the branch is protected or default. -/
def compare_call_issued (ms : ManagerState) (name : String) : Bool :=
  !(matchesProtectedRegex name || ms.default_branch == some name)

/-- `_get_branch_info`. -/
def get_branch_info (gw : Gateway) (ms : ManagerState) (name : String) : BranchInfo :=
  let is_protected := matchesProtectedRegex name
  let is_default := ms.default_branch == some name
  let merge_status :=
    if ms.merged_branches.contains name then MergeStatus.merged else MergeStatus.not_merged
  let pr_status :=
    if ms.closed_pr_branches.contains name then PRStatus.closed else PRStatus.not_closed
  if is_protected || is_default then
    { name := name, status := "protected", merge_status := merge_status,
      pr_status := pr_status, is_protected := is_protected, is_default := is_default }
  else
    let c := get_compare_status gw name
    { name := name, status := c.1, merge_status := merge_status,
      pr_status := pr_status, is_protected := is_protected, is_default := is_default,
      ahead_by := c.2.1, behind_by := c.2.2 }

/-- Stage-2 placeholder emitted for every listed name (`fetch_branches`,
first incremental loop). -/
def placeholder_record (name : String) : BranchInfo :=
  { name := name, status := "fetching",
    merge_status := MergeStatus.fetching, pr_status := PRStatus.fetching }

/-- Stage-3 re-emission: `merge_status` resolved against `_merged_branches`,
`pr_status` still fetching. -/
def stage3_update (ms : ManagerState) (name : String) : BranchInfo :=
  { name := name, status := "fetching",
    merge_status :=
      if ms.merged_branches.contains name then MergeStatus.merged else MergeStatus.not_merged,
    pr_status := PRStatus.fetching }

/-- Stage-4 re-emission: `pr_status` resolved against `_closed_pr_branches`. -/
def stage4_update (ms : ManagerState) (name : String) : BranchInfo :=
  { name := name, status := "fetching",
    merge_status :=
      if ms.merged_branches.contains name then MergeStatus.merged else MergeStatus.not_merged,
    pr_status :=
      if ms.closed_pr_branches.contains name then PRStatus.closed else PRStatus.not_closed }

/-- Minimal record built in the `except` arm of the stage-5 result loop
(a branch whose future raised). -/
def crash_record (ms : ManagerState) (name : String) : BranchInfo :=
  { name := name, status := "unknown",
    merge_status :=
      if ms.merged_branches.contains name then MergeStatus.merged else MergeStatus.not_merged,
    pr_status :=
      if ms.closed_pr_branches.contains name then PRStatus.closed else PRStatus.not_closed }

/-- Final record delivered for one branch by stage 5. -/
def stage5_record (gw : Gateway) (ms : ManagerState) (name : String) : BranchInfo :=
  if gw.branchInfoCrash name then crash_record ms name else get_branch_info gw ms name

/-- Manager state after the merged-set and closed-set stages. -/
def ms_after_sets (gw : Gateway) (ms : ManagerState) : ManagerState :=
  fetch_closed_pr_branches gw (fetch_merged_branches gw ms)

/-- Everything one `fetch_branches` run produces. -/
structure FetchOutcome where
  manager : ManagerState
  names : List String
  emissions : List BranchInfo
  calls : List RemoteCall
  returned : List BranchInfo
deriving Repr

/-- `GitHubBranchManager.fetch_branches`. `perm` is the order in which the
stage-5 futures complete (the worker pool fixes no order; theorems that need
every branch covered assume `perm` permutes the listed names). Repository
identity is assumed already resolved, as `fetch_branches_background` calls
`get_repo_info` before this point. `emissions` is the sequence of
`incremental_callback` deliveries, in order; `returned` is the function's
return value (`self.branches`, stage-5 completion order). -/
def fetch_branches (gw : Gateway) (perm : List String) (ms0 : ManagerState) :
    FetchOutcome :=
  let names := fetch_all_branches gw
  let stage2 := names.map placeholder_record
  let ms2 := fetch_merged_branches gw ms0
  let stage3 := names.map (stage3_update ms2)
  let ms3 := fetch_closed_pr_branches gw ms2
  let stage4 := names.map (stage4_update ms3)
  let finals := perm.map (stage5_record gw ms3)
  { manager := { ms3 with branches := finals },
    names := names,
    emissions := stage2 ++ stage3 ++ stage4 ++ finals,
    calls :=
      [RemoteCall.listBranchesCall, RemoteCall.mergedListCall, RemoteCall.closedListCall]
        ++ perm.filterMap (fun n =>
            if compare_call_issued ms3 n then some (RemoteCall.compareCall n) else none),
    returned := finals }

/-- `delete_branch`: classification of the delete call's outcome into the
`(success, message)` pair built by the source. -/
def delete_branch (gw : Gateway) (name : String) : Bool × String :=
  match gw.deleteResult name with
  | DeleteOutcome.ok => (true, "Successfully deleted " ++ name)
  | DeleteOutcome.refMissing => (false, "Branch " ++ name ++ " does not exist")
  | DeleteOutcome.otherFail e => (false, "Failed to delete " ++ name ++ ": " ++ e)
  | DeleteOutcome.timedOut => (false, "Timeout while deleting " ++ name)

/-- One observable event of a `delete_branches` run: a progress callback or
an actual delete attempt. -/
inductive DelEvent
  | progressEvent (current total : Nat) (name : String)
  | attempt (name : String) (success : Bool)
deriving DecidableEq, Repr

/-- Loop body of `delete_branches` (`enumerate(branch_names, 1)` supplies the
1-based index). Produces the result list and the ordered event trace. -/
def delete_branches_go (gw : Gateway) (total : Nat) :
    Nat → List String → List (String × Bool × String) × List DelEvent
  | _, [] => ([], [])
  | idx, n :: rest =>
    let r := delete_branch gw n
    let tail := delete_branches_go gw total (idx + 1) rest
    ((n, r.1, r.2) :: tail.1,
     DelEvent.progressEvent idx total n :: DelEvent.attempt n r.1 :: tail.2)

/-- `GitHubBranchManager.delete_branches`. -/
def delete_branches (gw : Gateway) (names : List String) :
    List (String × Bool × String) × List DelEvent :=
  delete_branches_go gw names.length 1 names

/-- `sort_mode` values of `BranchManagerApp` (cycled in the order
name, status, merged). -/
inductive SortMode
  | name
  | status
  | merged
deriving DecidableEq, Repr

/-- Owner-thread state of `BranchManagerApp`: the fields its actions read and
write. `branches_dict` is not carried separately: it maps each name to its
index in `branches_data`, and names are unique there along every reachable
evolution (entries are only added by the upsert when absent), so the list
determines it. The Python set `selected_branches` is a `Finset`. -/
structure AppState where
  manager : ManagerState := {}
  selected_branches : Finset String := ∅
  branches_data : List BranchInfo := []
  filter_text : String := ""
  sort_mode : SortMode := SortMode.name
  loading : Bool := false

/-- `_handle_branch_update`: upsert by name. With names unique in
`branches_data`, replacing the entry at the dict's index is replacing the
entry carrying that name. -/
def handle_branch_update (st : AppState) (b : BranchInfo) : AppState :=
  if st.branches_data.any (fun x => x.name == b.name) then
    { st with branches_data :=
        st.branches_data.map (fun x => if x.name == b.name then b else x) }
  else
    { st with branches_data := st.branches_data ++ [b] }

/-- Per-character lowering of a string: the embedding of Python
`str.lower()`, as a character list. -/
def pyLower (s : String) : List Char :=
  s.data.map Char.toLower

/-- `self.filter_text.lower() in b.name.lower()`: case-insensitive
contiguous-substring test. -/
def matchesFilter (ft : String) (b : BranchInfo) : Bool :=
  decide (pyLower ft <:+: pyLower b.name)

/-- The `status_order` table of `_update_table`, with `.get(status, 7)` for
statuses outside the table. -/
def status_order (s : String) : Nat :=
  if s = "protected" then 0
  else if s = "diverged" then 1
  else if s = "ahead" then 2
  else if s = "behind" then 3
  else if s = "identical" then 4
  else if s = "fetching" then 5
  else if s = "unknown" then 6
  else 7

/-- Code-point lexicographic comparison of character lists: the order Python
uses to compare strings. -/
def charListLe : List Char → List Char → Bool
  | [], _ => true
  | _ :: _, [] => false
  | a :: as, b :: bs =>
    if a.toNat < b.toNat then true
    else if b.toNat < a.toNat then false
    else charListLe as bs

/-- Python string comparison, lifted to `String`. -/
def pyStrLe (a b : String) : Bool :=
  charListLe a.data b.data

/-- Comparator for `sort_mode == "name"`: `key=lambda b: b.name`. -/
def nameLe (a b : BranchInfo) : Bool :=
  pyStrLe a.name b.name

/-- Lexicographic comparison by a numeric primary key with a secondary
comparator: how Python orders the `(k, name)` sort keys. -/
def keyPairLe {α : Type} (f : α → Nat) (g : α → α → Bool) (a b : α) : Bool :=
  decide (f a < f b) || (decide (f a = f b) && g a b)

/-- Comparator for `sort_mode == "status"`:
`key=lambda b: (status_order.get(b.status, 7), b.name)`. -/
def statusKeyLe (a b : BranchInfo) : Bool :=
  keyPairLe (fun x => status_order x.status) nameLe a b

/-- Comparator for `sort_mode == "merged"`:
`key=lambda b: (not b.is_merged, b.name)`; `False` sorts before `True`. -/
def mergedKeyLe (a b : BranchInfo) : Bool :=
  keyPairLe (fun x => if x.is_merged then 0 else 1) nameLe a b

/-- Row sequence computed by `_update_table`: filter by case-insensitive
substring, then stable-sort with the key of the active sort mode. -/
def displayed_rows (st : AppState) : List BranchInfo :=
  let filtered := st.branches_data.filter (matchesFilter st.filter_text)
  match st.sort_mode with
  | SortMode.name => filtered.mergeSort nameLe
  | SortMode.status => filtered.mergeSort statusKeyLe
  | SortMode.merged => filtered.mergeSort mergedKeyLe

/-- Observable outcome of `action_toggle_selection`; the constructors keep
the source's distinct exits apart (early returns, the error status line for
protected/default targets, and the `Selected n branch(es)` line). -/
inductive ToggleOutcome
  | noRow
  | branchMissing
  | notSelectable (name : String)
  | toggled (name : String) (selectedCount : Nat)
deriving DecidableEq, Repr

/-- `action_toggle_selection`. `cursorName` is the row key under the cursor
(`None` when the table has no cursor row). -/
def action_toggle_selection (st : AppState) (cursorName : Option String) :
    AppState × ToggleOutcome :=
  match cursorName with
  | none => (st, ToggleOutcome.noRow)
  | some n =>
    match st.branches_data.find? (fun b => b.name == n) with
    | none => (st, ToggleOutcome.branchMissing)
    | some b =>
      if b.is_protected || b.is_default then
        (st, ToggleOutcome.notSelectable b.name)
      else
        let sel :=
          if b.name ∈ st.selected_branches then st.selected_branches.erase b.name
          else insert b.name st.selected_branches
        ({ st with selected_branches := sel }, ToggleOutcome.toggled b.name sel.card)

/-- Selection condition of `action_auto_select_merged`: not protected or
default, merged, and status identical or behind. -/
def auto_select_eligible (b : BranchInfo) : Bool :=
  !(b.is_protected || b.is_default) && b.is_merged
    && (b.status == "identical" || b.status == "behind")

/-- `action_auto_select_merged`; also returns the reported count (which
counts eligible branches whether or not they were already selected). -/
def action_auto_select_merged (st : AppState) : AppState × Nat :=
  let eligible := st.branches_data.filter auto_select_eligible
  ({ st with selected_branches :=
      st.selected_branches ∪ (eligible.map (fun b => b.name)).toFinset },
   eligible.length)

/-- `action_clear_selection`. -/
def action_clear_selection (st : AppState) : AppState :=
  { st with selected_branches := ∅ }

/-- How a refresh request was answered. `rejected` would be the
`Already loading...` early exit; that guard is commented out in the source,
so `action_refresh` never produces it. -/
inductive RefreshOutcome
  | started
  | rejected
deriving DecidableEq, Repr

/-- Owner-thread part of `action_refresh`: the `_loading` guard and the
`selected_branches.clear()` call are both commented out in the source, so it
clears `branches_data`/`branches_dict` unconditionally, leaves the selection
untouched, and starts the background fetch. -/
def action_refresh (st : AppState) : AppState × RefreshOutcome :=
  ({ st with branches_data := [] }, RefreshOutcome.started)

/-- Final status line of a fetch run: the single error message on an
identity failure, or the loaded count. -/
inductive RunStatus
  | loaded (count : Nat)
  | errorMsg (msg : String)
deriving DecidableEq, Repr

/-- Result of one background fetch run as the owner thread sees it. -/
structure RunResult where
  state : AppState
  status : RunStatus
  calls : List RemoteCall

/-- `fetch_branches_background`: resolve identity (failure there is the
run's single user-visible error and nothing else happens), then run
`fetch_branches`; each incremental callback lands on the owner thread as
`_handle_branch_update`. -/
def fetch_branches_background (gw : Gateway) (perm : List String) (st : AppState) :
    RunResult :=
  match get_repo_info gw st.manager with
  | (Except.error e, calls) =>
    { state := st, status := RunStatus.errorMsg e, calls := calls }
  | (Except.ok ms1, calls) =>
    let fo := fetch_branches gw perm ms1
    { state := { fo.emissions.foldl handle_branch_update st with manager := fo.manager },
      status := RunStatus.loaded fo.returned.length,
      calls := calls ++ fo.calls }

/-- A full `refresh` intent: the owner-thread clear followed by the
background run it schedules. -/
def refresh_run (gw : Gateway) (perm : List String) (st : AppState) :
    RunResult × RefreshOutcome :=
  ((action_refresh st).1 |> fetch_branches_background gw perm, (action_refresh st).2)

/-- `_handle_deletion_complete`: drop every successfully deleted name from
the selection, then trigger `action_refresh` (which clears the registry). -/
def handle_deletion_complete (st : AppState)
    (results : List (String × Bool × String)) : AppState :=
  let sel := results.foldl
    (fun s r => if r.2.1 ∧ r.1 ∈ s then s.erase r.1 else s)
    st.selected_branches
  (action_refresh { st with selected_branches := sel }).1

/-- Registry/selection invariant claimed by the spec: every selected name is
a registry key whose record is neither protected nor default. -/
def selection_invariant (st : AppState) : Prop :=
  ∀ n ∈ st.selected_branches, ∃ b ∈ st.branches_data,
    b.name = n ∧ b.is_protected = false ∧ b.is_default = false

instance (st : AppState) : Decidable (selection_invariant st) := by
  unfold selection_invariant
  infer_instance

/-- Fold of a sequence of toggle-selection intents. -/
def toggle_fold (st : AppState) : List (Option String) → AppState
  | [] => st
  | c :: cs => toggle_fold (action_toggle_selection st c).1 cs

/-- Concrete registry used to witness C9. -/
def stC9 : AppState :=
  { branches_data :=
      [{ name := "z-branch", status := "ahead", merge_status := MergeStatus.not_merged },
       { name := "a-branch", status := "diverged", merge_status := MergeStatus.merged },
       { name := "m-branch", status := "identical", merge_status := MergeStatus.merged }],
    filter_text := "",
    sort_mode := SortMode.name }

/-- Gateway used to witness C5: two listed branches with identity resolved. -/
def gwC5 : Gateway :=
  { repoNameResult := some "octo/repo", defaultBranchResult := some "main",
    listResult := some ["main", "feat"], mergedResult := some [],
    closedResult := some [], compareResult := fun _ => none,
    branchInfoCrash := fun _ => false, deleteResult := fun _ => DeleteOutcome.ok }

/-- Gateway used to witness C6: the compare call for `feat` fails while the
merged set contains it. -/
def gwC6 : Gateway :=
  { repoNameResult := some "octo/repo", defaultBranchResult := some "main",
    listResult := some ["feat"], mergedResult := some ["feat"],
    closedResult := some [], compareResult := fun _ => none,
    branchInfoCrash := fun _ => false, deleteResult := fun _ => DeleteOutcome.ok }

/-- Manager state used to witness C6 (after stages 3 and 4 on `gwC6`). -/
def msC6 : ManagerState :=
  { repo_full := some "octo/repo", default_branch := some "main",
    merged_branches := ["feat"], closed_pr_branches := [] }

/-- Gateway whose merged-PR listing fails; everything else succeeds. -/
def gwC7 : Gateway :=
  { repoNameResult := some "octo/repo", defaultBranchResult := some "main",
    listResult := some ["x"], mergedResult := none,
    closedResult := some [], compareResult := fun _ => none,
    branchInfoCrash := fun _ => false, deleteResult := fun _ => DeleteOutcome.ok }

/-- Manager state left by an earlier successful run whose merged set was
`{"x"}` (the app reuses one `GitHubBranchManager` across refreshes). -/
def msC7 : ManagerState :=
  { repo_full := some "octo/repo", default_branch := some "main",
    merged_branches := ["x"] }

/-- Gateway for the C8 counterexample: a repository whose only branch is its
default branch `main`. -/
def gwC8 : Gateway :=
  { repoNameResult := some "octo/repo", defaultBranchResult := some "main",
    listResult := some ["main"], mergedResult := some [],
    closedResult := some [], compareResult := fun _ => none,
    branchInfoCrash := fun _ => false, deleteResult := fun _ => DeleteOutcome.ok }

/-- Manager state `get_repo_info` produces on `gwC8`. -/
def msC8 : ManagerState :=
  { repo_full := some "octo/repo", default_branch := some "main" }

/-- Registry used to witness C10: a protected default branch and a plain
feature branch. -/
def stC10 : AppState :=
  { branches_data :=
      [{ name := "main", status := "protected", is_protected := true, is_default := true },
       { name := "feat", status := "ahead" }] }

/-- Stage-5-shaped record for a plain feature branch, used in the C4 trace. -/
def featRecordC4 : BranchInfo :=
  { name := "feat", status := "identical", merge_status := MergeStatus.merged,
    pr_status := PRStatus.not_closed }

/-- Fully healthy gateway over an empty branch list, used for C1. -/
def gwC1 : Gateway :=
  { repoNameResult := some "octo/repo", defaultBranchResult := some "main",
    listResult := some [], mergedResult := some [], closedResult := some [],
    compareResult := fun _ => none, branchInfoCrash := fun _ => false,
    deleteResult := fun _ => DeleteOutcome.ok }

/-- App state in the middle of an active fetch run (`_loading` set). -/
def stC1 : AppState := { loading := true }

/-- Gateway whose branch-listing call fails; identity resolves fine. -/
def gwC2 : Gateway :=
  { repoNameResult := some "octo/repo", defaultBranchResult := some "main",
    listResult := none, mergedResult := some [], closedResult := some [],
    compareResult := fun _ => none, branchInfoCrash := fun _ => false,
    deleteResult := fun _ => DeleteOutcome.ok }

/-! ### Helper lemmas about the comparators and the registry fold -/

theorem charListLe_cons {x y : Char} {xs ys : List Char} :
    charListLe (x :: xs) (y :: ys) = true ↔
      x.toNat < y.toNat ∨ (x.toNat = y.toNat ∧ charListLe xs ys = true) := by
  by_cases h1 : x.toNat < y.toNat
  · simp [charListLe, h1]
  · by_cases h2 : y.toNat < x.toNat
    · simp only [charListLe]
      rw [if_neg h1, if_pos h2]
      constructor
      · intro h; exact absurd h (by simp)
      · intro h
        rcases h with h | ⟨h, _⟩ <;> omega
    · have hx : x.toNat = y.toNat := by omega
      simp [charListLe, h1, h2, hx]

theorem charListLe_trans :
    ∀ a b c : List Char, charListLe a b = true → charListLe b c = true →
      charListLe a c = true := by
  intro a
  induction a with
  | nil => intro b c _ _; rfl
  | cons x xs ih =>
    intro b c hab hbc
    cases b with
    | nil => exact absurd hab (by simp [charListLe])
    | cons y ys =>
      cases c with
      | nil => exact absurd hbc (by simp [charListLe])
      | cons z zs =>
        rw [charListLe_cons] at hab hbc ⊢
        rcases hab with h1 | ⟨h1, h1le⟩
        · rcases hbc with h2 | ⟨h2, _⟩
          · exact Or.inl (by omega)
          · exact Or.inl (by omega)
        · rcases hbc with h2 | ⟨h2, h2le⟩
          · exact Or.inl (by omega)
          · exact Or.inr ⟨by omega, ih ys zs h1le h2le⟩

theorem charListLe_total :
    ∀ a b : List Char, (charListLe a b || charListLe b a) = true := by
  intro a
  induction a with
  | nil => intro b; simp [charListLe]
  | cons x xs ih =>
    intro b
    cases b with
    | nil => simp [charListLe]
    | cons y ys =>
      rw [Bool.or_eq_true, charListLe_cons, charListLe_cons]
      by_cases h1 : x.toNat < y.toNat
      · exact Or.inl (Or.inl h1)
      · by_cases h2 : y.toNat < x.toNat
        · exact Or.inr (Or.inl h2)
        · have hx : x.toNat = y.toNat := by omega
          have := ih ys
          rw [Bool.or_eq_true] at this
          rcases this with h | h
          · exact Or.inl (Or.inr ⟨hx, h⟩)
          · exact Or.inr (Or.inr ⟨hx.symm, h⟩)

theorem nameLe_trans : ∀ a b c : BranchInfo,
    nameLe a b = true → nameLe b c = true → nameLe a c = true := by
  intro a b c hab hbc
  exact charListLe_trans _ _ _ hab hbc

theorem nameLe_total : ∀ a b : BranchInfo, (nameLe a b || nameLe b a) = true := by
  intro a b
  exact charListLe_total _ _

theorem keyPairLe_trans {α : Type} (f : α → Nat) (g : α → α → Bool)
    (hg : ∀ a b c, g a b = true → g b c = true → g a c = true) :
    ∀ a b c, keyPairLe f g a b = true → keyPairLe f g b c = true →
      keyPairLe f g a c = true := by
  intro a b c hab hbc
  simp only [keyPairLe, Bool.or_eq_true, Bool.and_eq_true, decide_eq_true_eq] at hab hbc ⊢
  rcases hab with h1 | ⟨h1, h1g⟩
  · rcases hbc with h2 | ⟨h2, _⟩
    · exact Or.inl (by omega)
    · exact Or.inl (by omega)
  · rcases hbc with h2 | ⟨h2, h2g⟩
    · exact Or.inl (by omega)
    · exact Or.inr ⟨by omega, hg a b c h1g h2g⟩

theorem keyPairLe_total {α : Type} (f : α → Nat) (g : α → α → Bool)
    (hg : ∀ a b, (g a b || g b a) = true) :
    ∀ a b, (keyPairLe f g a b || keyPairLe f g b a) = true := by
  intro a b
  simp only [keyPairLe, Bool.or_eq_true, Bool.and_eq_true, decide_eq_true_eq]
  by_cases h : f a < f b
  · exact Or.inl (Or.inl h)
  · by_cases h' : f b < f a
    · exact Or.inr (Or.inl h')
    · have he : f a = f b := by omega
      have := hg a b
      simp only [Bool.or_eq_true] at this
      rcases this with hga | hgb
      · exact Or.inl (Or.inr ⟨he, hga⟩)
      · exact Or.inr (Or.inr ⟨he.symm, hgb⟩)

theorem matchesFilter_empty (b : BranchInfo) : matchesFilter "" b = true := by
  simp [matchesFilter, pyLower, List.nil_infix]

/-- Upserting a record whose name is absent appends it. -/
theorem handle_branch_update_absent (st : AppState) (b : BranchInfo)
    (h : st.branches_data.any (fun x => x.name == b.name) = false) :
    (handle_branch_update st b).branches_data = st.branches_data ++ [b] := by
  simp [handle_branch_update, h]

/-- Folding the stage-2 placeholders into a registry that holds none of their
(pairwise distinct) names appends them in listing order. -/
theorem stage2_fold (ns : List String) :
    ∀ st : AppState, ns.Nodup →
      (∀ n ∈ ns, ∀ b ∈ st.branches_data, b.name ≠ n) →
      ((ns.map placeholder_record).foldl handle_branch_update st).branches_data
        = st.branches_data ++ ns.map placeholder_record := by
  induction ns with
  | nil => intro st _ _; simp
  | cons n rest ih =>
    intro st hnd hfresh
    have habs : st.branches_data.any (fun x => x.name == (placeholder_record n).name) = false := by
      simp only [Bool.eq_false_iff, ne_eq, List.any_eq_true, not_exists, not_and]
      intro b hb
      simp only [placeholder_record, beq_iff_eq]
      exact hfresh n (by simp) b hb
    have hstep := handle_branch_update_absent st (placeholder_record n) habs
    simp only [List.map_cons, List.foldl_cons]
    rw [ih (handle_branch_update st (placeholder_record n))]
    · rw [hstep]; simp
    · exact hnd.of_cons
    · intro m hm b hb
      rw [hstep] at hb
      rcases List.mem_append.mp hb with hb' | hb'
      · exact hfresh m (by simp [hm]) b hb'
      · simp only [List.mem_singleton] at hb'
        subst hb'
        simp only [placeholder_record]
        intro hcontra
        rw [List.nodup_cons] at hnd
        exact hnd.1 (hcontra ▸ hm)

/-- Toggling never changes the registry. -/
theorem toggle_branches_data (st : AppState) (c : Option String) :
    (action_toggle_selection st c).1.branches_data = st.branches_data := by
  cases c with
  | none => rfl
  | some n =>
    simp only [action_toggle_selection]
    cases hf : st.branches_data.find? (fun b => b.name == n) with
    | none => rfl
    | some b =>
      by_cases hp : (b.is_protected || b.is_default) = true
      · simp [hp]
      · simp [hp]

/-- Closed form of the `delete_branches` loop: one result per input name, in
input order, each carrying that name's own delete outcome. -/
theorem delete_branches_go_results (gw : Gateway) (total : Nat) :
    ∀ (idx : Nat) (ns : List String),
      (delete_branches_go gw total idx ns).1
        = ns.map (fun n => (n, (delete_branch gw n).1, (delete_branch gw n).2)) := by
  intro idx ns
  induction ns generalizing idx with
  | nil => rfl
  | cons n rest ih => simp [delete_branches_go, ih]

/-- Closed form of the `delete_branches` event trace: for the i-th name
(1-based when started at 1) a progress callback immediately followed by that
name's delete attempt. -/
theorem delete_branches_go_events (gw : Gateway) (total : Nat) :
    ∀ (idx : Nat) (ns : List String),
      (delete_branches_go gw total idx ns).2
        = (ns.enumFrom idx).flatMap (fun p =>
            [DelEvent.progressEvent p.1 total p.2,
             DelEvent.attempt p.2 (delete_branch gw p.2).1]) := by
  intro idx ns
  induction ns generalizing idx with
  | nil => rfl
  | cons n rest ih => simp [delete_branches_go, List.enumFrom_cons, ih]

/-- Membership after the selection-pruning fold of
`_handle_deletion_complete`: a name survives iff it was selected and no
successful result carries it. -/
theorem deletion_fold_mem (rs : List (String × Bool × String)) :
    ∀ (s : Finset String) (n : String),
      (n ∈ rs.foldl (fun s r => if r.2.1 ∧ r.1 ∈ s then s.erase r.1 else s) s) ↔
        (n ∈ s ∧ ∀ r ∈ rs, r.1 = n → r.2.1 = false) := by
  induction rs with
  | nil => intro s n; simp
  | cons r rest ih =>
    intro s n
    simp only [List.foldl_cons]
    by_cases hc : (r.2.1 = true ∧ r.1 ∈ s)
    · rw [if_pos hc]
      rw [ih]
      simp only [Finset.mem_erase, List.mem_cons]
      constructor
      · rintro ⟨⟨hne, hns⟩, hrest⟩
        refine ⟨hns, ?_⟩
        intro q hq
        rcases hq with rfl | hq
        · intro hqn; exact absurd hqn (fun h => hne (h ▸ rfl))
        · exact hrest q hq
      · rintro ⟨hns, hall⟩
        refine ⟨⟨?_, hns⟩, ?_⟩
        · intro hn
          have := hall r (Or.inl rfl) hn.symm
          rw [this] at hc
          exact absurd hc.1 (by simp)
        · intro q hq; exact hall q (Or.inr hq)
    · rw [if_neg hc]
      rw [ih]
      simp only [List.mem_cons]
      constructor
      · rintro ⟨hns, hrest⟩
        refine ⟨hns, ?_⟩
        intro q hq
        rcases hq with rfl | hq
        · intro hqn
          by_contra hfail
          have hqt : q.2.1 = true := by
            cases hb : q.2.1
            · exact absurd hb hfail
            · rfl
          exact hc ⟨hqt, hqn ▸ hns⟩
        · exact hrest q hq
      · rintro ⟨hns, hall⟩
        exact ⟨hns, fun q hq => hall q (Or.inr hq)⟩

/-- C3: `delete_branches` attempts every input name sequentially in input
order, fires the progress callback `(index, total, name)` immediately before
each attempt, produces exactly one result per input name (a failure never
aborts the batch), and `_handle_deletion_complete` afterwards removes from
the selection set exactly the successfully deleted names. -/
theorem C3_deletion_batch (gw : Gateway) (names : List String) (st : AppState) :
    ((delete_branches gw names).1.map (fun r => r.1) = names)
    ∧ ((delete_branches gw names).1
        = names.map (fun n => (n, (delete_branch gw n).1, (delete_branch gw n).2)))
    ∧ ((delete_branches gw names).2
        = (names.enumFrom 1).flatMap (fun p =>
            [DelEvent.progressEvent p.1 names.length p.2,
             DelEvent.attempt p.2 (delete_branch gw p.2).1]))
    ∧ (∀ n, n ∈ (handle_deletion_complete st (delete_branches gw names).1).selected_branches
          ↔ (n ∈ st.selected_branches
              ∧ ∀ r ∈ (delete_branches gw names).1, r.1 = n → r.2.1 = false)) := by
  refine ⟨?_, ?_, ?_, ?_⟩
  · rw [delete_branches, delete_branches_go_results, List.map_map]
    exact List.map_id names
  · rw [delete_branches, delete_branches_go_results]
  · rw [delete_branches, delete_branches_go_events]
  · intro n
    simp only [handle_deletion_complete, action_refresh]
    exact deletion_fold_mem _ _ _

theorem statusKeyLe_trans : ∀ a b c : BranchInfo,
    statusKeyLe a b = true → statusKeyLe b c = true → statusKeyLe a c = true :=
  keyPairLe_trans _ nameLe nameLe_trans

theorem statusKeyLe_total : ∀ a b : BranchInfo,
    (statusKeyLe a b || statusKeyLe b a) = true :=
  keyPairLe_total _ nameLe nameLe_total

theorem mergedKeyLe_trans : ∀ a b c : BranchInfo,
    mergedKeyLe a b = true → mergedKeyLe b c = true → mergedKeyLe a c = true :=
  keyPairLe_trans _ nameLe nameLe_trans

theorem mergedKeyLe_total : ∀ a b : BranchInfo,
    (mergedKeyLe a b || mergedKeyLe b a) = true :=
  keyPairLe_total _ nameLe nameLe_total

/-- C9: for every registry content, filter text and sort mode, the displayed
sequence is a permutation of exactly the records whose lowered name contains
the lowered filter text (the empty filter keeps the full registry), and it is
ordered by the active mode's key: ascending name for `name`; the fixed
priority table (protected 0, diverged 1, ahead 2, behind 3, identical 4,
fetching 5, unknown 6, other 7) with name tie-break for `status`; merged
before non-merged with name tie-break for `merged`. -/
theorem C9_view_filter_sort (st : AppState) :
    ((displayed_rows st).Perm (st.branches_data.filter (matchesFilter st.filter_text)))
    ∧ (st.filter_text = "" →
        st.branches_data.filter (matchesFilter st.filter_text) = st.branches_data)
    ∧ (st.sort_mode = SortMode.name →
        (displayed_rows st).Pairwise (fun a b => nameLe a b = true))
    ∧ (st.sort_mode = SortMode.status →
        (displayed_rows st).Pairwise (fun a b => statusKeyLe a b = true))
    ∧ (st.sort_mode = SortMode.merged →
        (displayed_rows st).Pairwise (fun a b => mergedKeyLe a b = true)) := by
  refine ⟨?_, ?_, ?_, ?_, ?_⟩
  · unfold displayed_rows
    cases st.sort_mode <;> exact List.mergeSort_perm _ _
  · intro h
    rw [h]
    apply List.filter_eq_self.mpr
    intro b _
    exact matchesFilter_empty b
  · intro h
    unfold displayed_rows
    rw [h]
    exact List.sorted_mergeSort nameLe_trans nameLe_total _
  · intro h
    unfold displayed_rows
    rw [h]
    exact List.sorted_mergeSort statusKeyLe_trans statusKeyLe_total _
  · intro h
    unfold displayed_rows
    rw [h]
    exact List.sorted_mergeSort mergedKeyLe_trans mergedKeyLe_total _

/-- Witness for C9 at a concrete three-branch registry with empty filter and
name ordering. -/
theorem C9_view_filter_sort_witness :
    (stC9.branches_data.filter (matchesFilter stC9.filter_text) = stC9.branches_data)
    ∧ (displayed_rows stC9).Pairwise (fun a b => nameLe a b = true) :=
  ⟨(C9_view_filter_sort stC9).2.1 rfl, (C9_view_filter_sort stC9).2.2.1 rfl⟩

/-- C5: after stage 2 of a run (the first `names.length` incremental
deliveries, applied to the registry that `action_refresh` just cleared), the
registry holds exactly one placeholder per listed name, in listing order, its
size equals the number of listed names, and every record reads
`status="fetching"` with both `merge_status` and `pr_status` fetching; the
stage-2 prefix of the emission stream is the placeholder list itself, ahead
of any per-branch work. -/
theorem C5_stage2_placeholders (gw : Gateway) (ms1 : ManagerState) (st : AppState)
    (perm : List String) (hnd : (fetch_all_branches gw).Nodup) :
    ((fetch_branches gw perm ms1).emissions.take (fetch_all_branches gw).length
      = (fetch_all_branches gw).map placeholder_record)
    ∧ ((((fetch_branches gw perm ms1).emissions.take (fetch_all_branches gw).length).foldl
          handle_branch_update (action_refresh st).1).branches_data
        = (fetch_all_branches gw).map placeholder_record)
    ∧ ((((fetch_branches gw perm ms1).emissions.take (fetch_all_branches gw).length).foldl
          handle_branch_update (action_refresh st).1).branches_data.length
        = (fetch_all_branches gw).length)
    ∧ (∀ b ∈ (((fetch_branches gw perm ms1).emissions.take (fetch_all_branches gw).length).foldl
          handle_branch_update (action_refresh st).1).branches_data,
        b.status = "fetching" ∧ b.merge_status = MergeStatus.fetching
          ∧ b.pr_status = PRStatus.fetching) := by
  have htake : (fetch_branches gw perm ms1).emissions.take (fetch_all_branches gw).length
      = (fetch_all_branches gw).map placeholder_record := by
    show (((fetch_all_branches gw).map placeholder_record
        ++ (fetch_all_branches gw).map (stage3_update _)
        ++ (fetch_all_branches gw).map (stage4_update _)
        ++ perm.map (stage5_record gw _)).take (fetch_all_branches gw).length)
      = (fetch_all_branches gw).map placeholder_record
    rw [List.append_assoc, List.append_assoc]
    rw [show (fetch_all_branches gw).length
        = ((fetch_all_branches gw).map placeholder_record).length by simp]
    exact List.take_left _ _
  have hreg : (((fetch_branches gw perm ms1).emissions.take
        (fetch_all_branches gw).length).foldl
        handle_branch_update (action_refresh st).1).branches_data
      = (fetch_all_branches gw).map placeholder_record := by
    rw [htake]
    have := stage2_fold (fetch_all_branches gw) (action_refresh st).1 hnd
      (by intro n _ b hb; simp [action_refresh] at hb)
    simpa [action_refresh] using this
  refine ⟨htake, hreg, by rw [hreg]; simp, ?_⟩
  intro b hb
  rw [hreg] at hb
  rcases List.mem_map.mp hb with ⟨n, _, rfl⟩
  exact ⟨rfl, rfl, rfl⟩

/-- Witness for C5: on a concrete two-branch listing, the registry after
stage 2 is exactly the two placeholders in listing order. -/
theorem C5_stage2_placeholders_witness :
    (((fetch_branches gwC5 ["main", "feat"] {}).emissions.take
        (fetch_all_branches gwC5).length).foldl
        handle_branch_update (action_refresh {}).1).branches_data
      = [placeholder_record "main", placeholder_record "feat"] :=
  (C5_stage2_placeholders gwC5 {} {} ["main", "feat"] (by decide)).2.1

/-- C6: a branch whose stage-5 resolution fails — whether the compare call
fails (the `_get_compare_status` catch-all) or the whole per-branch future
raises (the `except` arm) — yields a degraded record with `status="unknown"`
whose `merge_status` and `pr_status` equal the values stage 4 had already
resolved for it; and a branch's stage-5 record depends only on that branch's
own oracle outcomes, so one branch's failure affects no other record. -/
theorem C6_per_branch_failure (gw gw' : Gateway) (ms : ManagerState) (n : String) :
    (gw.branchInfoCrash n = false → compare_call_issued ms n = true →
      gw.compareResult n = none →
        (stage5_record gw ms n).status = "unknown"
        ∧ (stage5_record gw ms n).merge_status = (stage4_update ms n).merge_status
        ∧ (stage5_record gw ms n).pr_status = (stage4_update ms n).pr_status)
    ∧ (gw.branchInfoCrash n = true →
        (stage5_record gw ms n).status = "unknown"
        ∧ (stage5_record gw ms n).merge_status = (stage4_update ms n).merge_status
        ∧ (stage5_record gw ms n).pr_status = (stage4_update ms n).pr_status)
    ∧ (gw.compareResult n = gw'.compareResult n →
        gw.branchInfoCrash n = gw'.branchInfoCrash n →
        stage5_record gw ms n = stage5_record gw' ms n) := by
  refine ⟨?_, ?_, ?_⟩
  · intro hcrash hissued hcmp
    have hpd : (matchesProtectedRegex n || ms.default_branch == some n) = false := by
      simpa [compare_call_issued] using hissued
    simp [stage5_record, hcrash, get_branch_info, hpd, get_compare_status, hcmp,
      stage4_update]
  · intro hcrash
    simp [stage5_record, hcrash, crash_record, stage4_update]
  · intro hcmp hcrash
    simp [stage5_record, hcrash, get_branch_info, get_compare_status, hcmp]

/-- Witness for C6: the degraded record for `feat` is `unknown` and keeps the
already-resolved merged flag. -/
theorem C6_per_branch_failure_witness :
    (stage5_record gwC6 msC6 "feat").status = "unknown"
    ∧ (stage5_record gwC6 msC6 "feat").merge_status = (stage4_update msC6 "feat").merge_status
    ∧ (stage5_record gwC6 msC6 "feat").pr_status = (stage4_update msC6 "feat").pr_status :=
  (C6_per_branch_failure gwC6 gwC6 msC6 "feat").1 rfl (by decide) rfl

/-- Counterexample to C7 as stated: when the merged-PR fetch fails, the
merged set does not degrade to the empty set — `_fetch_merged_branches`
leaves the previous run's set `{"x"}` in place. -/
theorem C7_counterexample :
    gwC7.mergedResult = none
    ∧ (fetch_merged_branches gwC7 msC7).merged_branches = ["x"]
    ∧ (fetch_merged_branches gwC7 msC7).merged_branches ≠ [] :=
  ⟨rfl, rfl, by decide⟩

/-- C7 (amended): if the merged-PR set fetch fails or times out, the run does
not fail — it completes with the loaded count — and the merged set is left
unchanged (hence still empty on a fresh manager, but retaining a previous
run's set on a reused one); stage 3 then re-emits every listed branch with
`merge_status` resolved by membership in that unchanged set while
`pr_status` remains fetching. -/
theorem C7_merged_failure_keeps_set (gw : Gateway) (ms1 : ManagerState) (st : AppState)
    (perm : List String) (r d : String)
    (hr : gw.repoNameResult = some r) (hd : gw.defaultBranchResult = some d)
    (hm : gw.mergedResult = none) :
    (fetch_merged_branches gw ms1 = ms1)
    ∧ ((fetch_branches_background gw perm st).status = RunStatus.loaded perm.length)
    ∧ (((fetch_branches gw perm ms1).emissions.drop (fetch_all_branches gw).length).take
          (fetch_all_branches gw).length
        = (fetch_all_branches gw).map (stage3_update ms1))
    ∧ (∀ n, (stage3_update ms1 n).merge_status
          = (if ms1.merged_branches.contains n then MergeStatus.merged
             else MergeStatus.not_merged)
        ∧ (stage3_update ms1 n).pr_status = PRStatus.fetching) := by
  have hms2 : fetch_merged_branches gw ms1 = ms1 := by
    simp [fetch_merged_branches, hm]
  refine ⟨hms2, ?_, ?_, ?_⟩
  · simp [fetch_branches_background, get_repo_info, hr, hd, fetch_branches]
  · show ((((fetch_all_branches gw).map placeholder_record
        ++ (fetch_all_branches gw).map (stage3_update (fetch_merged_branches gw ms1))
        ++ (fetch_all_branches gw).map (stage4_update _)
        ++ perm.map (stage5_record gw _)).drop (fetch_all_branches gw).length).take
          (fetch_all_branches gw).length)
      = (fetch_all_branches gw).map (stage3_update ms1)
    rw [hms2, List.append_assoc, List.append_assoc]
    rw [show (fetch_all_branches gw).length
        = ((fetch_all_branches gw).map placeholder_record).length by simp]
    rw [List.drop_left]
    rw [show ((fetch_all_branches gw).map placeholder_record).length
        = ((fetch_all_branches gw).map (stage3_update ms1)).length by simp]
    exact List.take_left _ _
  · intro n
    exact ⟨by simp [stage3_update], rfl⟩

/-- Witness for C7 at the concrete failing gateway: the set survives and the
run still completes. -/
theorem C7_merged_failure_keeps_set_witness :
    (fetch_merged_branches gwC7 msC7 = msC7)
    ∧ ((fetch_branches_background gwC7 ["x"] {}).status = RunStatus.loaded 1) :=
  ⟨(C7_merged_failure_keeps_set gwC7 msC7 {} ["x"] "octo/repo" "main" rfl rfl rfl).1,
   (C7_merged_failure_keeps_set gwC7 msC7 {} ["x"] "octo/repo" "main" rfl rfl rfl).2.1⟩

/-- The merged-set and closed-set stages never touch the resolved default
branch. -/
theorem ms_after_sets_default (gw : Gateway) (ms : ManagerState) :
    (ms_after_sets gw ms).default_branch = ms.default_branch := by
  unfold ms_after_sets fetch_closed_pr_branches fetch_merged_branches
  cases gw.mergedResult <;> cases gw.closedResult <;> rfl

/-- Counterexample to C8 as stated: in the reachable state right after the
first stage-2 delivery of a run on `gwC8`, the registry record of `main` —
the default branch, which also matches the protected-name pattern — has
status `fetching`, not `protected`. -/
theorem C8_counterexample :
    ((get_repo_info gwC8 ({} : ManagerState)).1 = Except.ok msC8)
    ∧ ((fetch_branches gwC8 ["main"] msC8).emissions.take 1
        = [placeholder_record "main"])
    ∧ ((((fetch_branches gwC8 ["main"] msC8).emissions.take 1).foldl
          handle_branch_update (action_refresh {}).1).branches_data
        = [placeholder_record "main"])
    ∧ (matchesProtectedRegex "main" = true)
    ∧ (msC8.default_branch = some "main")
    ∧ ((placeholder_record "main").status ≠ "protected") := by
  refine ⟨rfl, rfl, rfl, rfl, rfl, by decide⟩

/-- C8 (amended): a branch that matches the protected-name pattern or equals
the resolved default branch gets a stage-5 record with status `protected`
(absent the exotic future-crash arm) and no comparison call is ever issued
for it during the run; its records from the earlier stages carry the
placeholder status `fetching` instead. -/
theorem C8_protected_short_circuit (gw : Gateway) (ms0 : ManagerState)
    (perm : List String) (n : String)
    (hpd : (matchesProtectedRegex n || ms0.default_branch == some n) = true)
    (hcrash : gw.branchInfoCrash n = false) :
    ((stage5_record gw (ms_after_sets gw ms0) n).status = "protected")
    ∧ (compare_call_issued (ms_after_sets gw ms0) n = false)
    ∧ (RemoteCall.compareCall n ∉ (fetch_branches gw perm ms0).calls)
    ∧ ((placeholder_record n).status = "fetching")
    ∧ ((stage3_update (fetch_merged_branches gw ms0) n).status = "fetching")
    ∧ ((stage4_update (ms_after_sets gw ms0) n).status = "fetching") := by
  have hpd3 : (matchesProtectedRegex n
      || (ms_after_sets gw ms0).default_branch == some n) = true := by
    rw [ms_after_sets_default]; exact hpd
  have hissued : compare_call_issued (ms_after_sets gw ms0) n = false := by
    simp only [compare_call_issued, hpd3, Bool.not_true]
  refine ⟨?_, hissued, ?_, rfl, rfl, rfl⟩
  · simp [stage5_record, hcrash, get_branch_info, hpd3]
  · show RemoteCall.compareCall n ∉
      ([RemoteCall.listBranchesCall, RemoteCall.mergedListCall, RemoteCall.closedListCall]
        ++ perm.filterMap (fun m =>
            if compare_call_issued (ms_after_sets gw ms0) m
            then some (RemoteCall.compareCall m) else none))
    intro hmem
    rcases List.mem_append.mp hmem with h | h
    · simp at h
    · rcases List.mem_filterMap.mp h with ⟨m, _, hf⟩
      by_cases hi : compare_call_issued (ms_after_sets gw ms0) m = true
      · rw [if_pos hi] at hf
        have hm : m = n := by
          have := Option.some.inj hf
          exact RemoteCall.compareCall.inj this
        rw [hm] at hi
        rw [hissued] at hi
        exact absurd hi (by simp)
      · rw [if_neg hi] at hf
        exact absurd hf (by simp)

/-- Witness for C8 on `gwC8`: the final record for `main` is protected and
its compare call is never issued. -/
theorem C8_protected_short_circuit_witness :
    ((stage5_record gwC8 (ms_after_sets gwC8 msC8) "main").status = "protected")
    ∧ (RemoteCall.compareCall "main" ∉ (fetch_branches gwC8 ["main"] msC8).calls) :=
  ⟨(C8_protected_short_circuit gwC8 msC8 ["main"] "main" (by decide) rfl).1,
   (C8_protected_short_circuit gwC8 msC8 ["main"] "main" (by decide) rfl).2.2.1⟩

/-- One toggle cannot change the selection membership of a name that has no
selectable record (absent, or protected/default) in the registry. -/
theorem toggle_step_mem (st : AppState) (c : Option String) (n : String)
    (h : ¬ ∃ b ∈ st.branches_data,
        b.name = n ∧ b.is_protected = false ∧ b.is_default = false) :
    (n ∈ (action_toggle_selection st c).1.selected_branches
      ↔ n ∈ st.selected_branches) := by
  cases c with
  | none => exact Iff.rfl
  | some m =>
    simp only [action_toggle_selection]
    cases hf : st.branches_data.find? (fun b => b.name == m) with
    | none => exact Iff.rfl
    | some b =>
      by_cases hp : (b.is_protected || b.is_default) = true
      · simp [hp]
      · have hbp : b.is_protected = false := by
          cases hv : b.is_protected
          · rfl
          · exact absurd (by rw [hv]; rfl) hp
        have hbd : b.is_default = false := by
          cases hv : b.is_default
          · rfl
          · exact absurd (by rw [hv, Bool.or_true]) hp
        have hbn : b.name ≠ n := by
          intro he
          exact h ⟨b, List.mem_of_find?_eq_some hf, he, hbp, hbd⟩
        simp only [hp]
        by_cases hsel : b.name ∈ st.selected_branches
        · simp only [if_pos hsel, Bool.false_eq_true, if_false]
          simp [Finset.mem_erase, Ne.symm hbn]
        · simp only [if_neg hsel, Bool.false_eq_true, if_false]
          simp [Finset.mem_insert, Ne.symm hbn]

/-- Registry content is unchanged across any toggle sequence. -/
theorem toggle_fold_branches_data (ts : List (Option String)) :
    ∀ st : AppState, (toggle_fold st ts).branches_data = st.branches_data := by
  induction ts with
  | nil => intro st; rfl
  | cons c cs ih =>
    intro st
    show (toggle_fold (action_toggle_selection st c).1 cs).branches_data = _
    rw [ih, toggle_branches_data]

/-- No sequence of toggles changes the selection membership of a name with no
selectable registry record. -/
theorem toggle_fold_mem (ts : List (Option String)) :
    ∀ (st : AppState) (n : String),
      (¬ ∃ b ∈ st.branches_data,
          b.name = n ∧ b.is_protected = false ∧ b.is_default = false) →
      (n ∈ (toggle_fold st ts).selected_branches ↔ n ∈ st.selected_branches) := by
  induction ts with
  | nil => intro st n _; exact Iff.rfl
  | cons c cs ih =>
    intro st n h
    show (n ∈ (toggle_fold (action_toggle_selection st c).1 cs).selected_branches ↔ _)
    rw [ih (action_toggle_selection st c).1 n
        (by rw [toggle_branches_data]; exact h)]
    exact toggle_step_mem st c n h

/-- C10: toggling a branch whose registry record is protected or default
leaves the state unchanged and surfaces the distinct not-selectable signal;
no sequence of toggles can ever add such a branch (or any branch without a
selectable record) to the selection; toggling a branch whose record is
neither protected nor default flips its membership. -/
theorem C10_toggle_selection (st : AppState) :
    (∀ (n : String) (b : BranchInfo),
        st.branches_data.find? (fun x => x.name == n) = some b →
        (b.is_protected || b.is_default) = true →
        action_toggle_selection st (some n) = (st, ToggleOutcome.notSelectable b.name))
    ∧ (∀ (ts : List (Option String)) (n : String),
        (¬ ∃ b ∈ st.branches_data,
            b.name = n ∧ b.is_protected = false ∧ b.is_default = false) →
        (n ∈ (toggle_fold st ts).selected_branches ↔ n ∈ st.selected_branches))
    ∧ (∀ (n : String) (b : BranchInfo),
        st.branches_data.find? (fun x => x.name == n) = some b →
        b.is_protected = false → b.is_default = false →
        ((n ∈ (action_toggle_selection st (some n)).1.selected_branches)
          ↔ n ∉ st.selected_branches)) := by
  refine ⟨?_, ?_, ?_⟩
  · intro n b hf hp
    simp [action_toggle_selection, hf, hp]
  · intro ts n h
    exact toggle_fold_mem ts st n h
  · intro n b hf hbp hbd
    have hbn : b.name = n := by
      have := List.find?_some hf
      exact beq_iff_eq.mp this
    subst hbn
    simp only [action_toggle_selection, hf, hbp, hbd, Bool.or_self]
    simp only [Bool.false_eq_true, if_false]
    by_cases hsel : b.name ∈ st.selected_branches
    · rw [if_pos hsel]
      simp [Finset.mem_erase, hsel]
    · rw [if_neg hsel]
      simp [Finset.mem_insert, hsel]

/-- Witness for C10 on `stC10`: toggling `main` is a signalled no-op, two
toggles of `main` never select it, toggling `feat` selects it. -/
theorem C10_toggle_selection_witness :
    (action_toggle_selection stC10 (some "main")
      = (stC10, ToggleOutcome.notSelectable "main"))
    ∧ (("main" ∈ (toggle_fold stC10 [some "main", some "main"]).selected_branches)
        ↔ "main" ∈ stC10.selected_branches)
    ∧ (("feat" ∈ (action_toggle_selection stC10 (some "feat")).1.selected_branches)
        ↔ "feat" ∉ stC10.selected_branches) :=
  ⟨(C10_toggle_selection stC10).1 "main"
      { name := "main", status := "protected", is_protected := true, is_default := true }
      rfl rfl,
   (C10_toggle_selection stC10).2.1 [some "main", some "main"] "main" (by decide),
   (C10_toggle_selection stC10).2.2 "feat"
      { name := "feat", status := "ahead" } rfl rfl rfl⟩

/-- Counterexample to C4 as stated: deliver a selectable record for `feat`,
toggle it into the selection (invariant holds), then press refresh —
`action_refresh` clears the registry but, the `selected_branches.clear()`
being commented out, keeps `feat` selected, so the selection is no longer a
subset of the (now empty) registry. -/
theorem C4_counterexample :
    selection_invariant
      ((action_toggle_selection (handle_branch_update {} featRecordC4) (some "feat")).1)
    ∧ ("feat" ∈ ((action_refresh
        ((action_toggle_selection (handle_branch_update {} featRecordC4)
          (some "feat")).1)).1).selected_branches)
    ∧ (((action_refresh
        ((action_toggle_selection (handle_branch_update {} featRecordC4)
          (some "feat")).1)).1).branches_data = [])
    ∧ ¬ selection_invariant
      ((action_refresh
        ((action_toggle_selection (handle_branch_update {} featRecordC4)
          (some "feat")).1)).1) := by
  refine ⟨by decide, by decide, rfl, by decide⟩

/-- C4 (amended): the selection-mutating view operations preserve the subset
invariant — toggling, auto-select-merged and clear-selection keep every
selected name backed by a non-protected, non-default registry record; the
invariant is however not preserved by starting a new fetch run, which clears
the registry without clearing the selection. -/
theorem C4_selection_ops_preserve (st : AppState) (c : Option String)
    (h : selection_invariant st) :
    selection_invariant (action_toggle_selection st c).1
    ∧ selection_invariant (action_auto_select_merged st).1
    ∧ selection_invariant (action_clear_selection st) := by
  refine ⟨?_, ?_, ?_⟩
  · cases c with
    | none => exact h
    | some m =>
      simp only [action_toggle_selection]
      cases hf : st.branches_data.find? (fun b => b.name == m) with
      | none => exact h
      | some b =>
        by_cases hp : (b.is_protected || b.is_default) = true
        · simp only [hp, if_true]
          exact h
        · have hbp : b.is_protected = false := by
            cases hv : b.is_protected
            · rfl
            · exact absurd (by rw [hv]; rfl) hp
          have hbd : b.is_default = false := by
            cases hv : b.is_default
            · rfl
            · exact absurd (by rw [hv, Bool.or_true]) hp
          simp only [hp]
          by_cases hsel : b.name ∈ st.selected_branches
          · simp only [if_pos hsel, Bool.false_eq_true, if_false]
            intro n hn
            exact h n (Finset.mem_erase.mp hn).2
          · simp only [if_neg hsel, Bool.false_eq_true, if_false]
            intro n hn
            rcases Finset.mem_insert.mp hn with rfl | hn'
            · exact ⟨b, List.mem_of_find?_eq_some hf, rfl, hbp, hbd⟩
            · exact h n hn'
  · intro n hn
    have hn' : n ∈ st.selected_branches
        ∨ n ∈ ((st.branches_data.filter auto_select_eligible).map
            (fun b => b.name)).toFinset := by
      simpa [action_auto_select_merged, Finset.mem_union] using hn
    rcases hn' with hn' | hn'
    · exact h n hn'
    · rw [List.mem_toFinset] at hn'
      rcases List.mem_map.mp hn' with ⟨b, hb, hbn⟩
      rcases List.mem_filter.mp hb with ⟨hbmem, helig⟩
      have hx : (!(b.is_protected || b.is_default)) = true := by
        simp only [auto_select_eligible, Bool.and_eq_true] at helig
        exact helig.1.1
      have hor : (b.is_protected || b.is_default) = false := by
        cases hv : (b.is_protected || b.is_default)
        · rfl
        · rw [hv] at hx; exact absurd hx (by simp)
      have hbp : b.is_protected = false := by
        cases hv : b.is_protected
        · rfl
        · rw [hv, Bool.true_or] at hor; exact absurd hor (by simp)
      have hbd : b.is_default = false := by
        cases hv : b.is_default
        · rfl
        · rw [hv, Bool.or_true] at hor; exact absurd hor (by simp)
      exact ⟨b, hbmem, hbn, hbp, hbd⟩
  · intro n hn
    exact absurd hn (Finset.not_mem_empty n)

/-- Witness for C4's amended theorem, at the empty initial state. -/
theorem C4_selection_ops_preserve_witness :
    selection_invariant (action_toggle_selection ({} : AppState) (some "feat")).1
    ∧ selection_invariant (action_auto_select_merged ({} : AppState)).1
    ∧ selection_invariant (action_clear_selection ({} : AppState)) :=
  C4_selection_ops_preserve {} (some "feat") (by decide)

/-- Counterexample to C1 as stated: with a fetch run active
(`loading = true`), a second refresh is not rejected — the guard is commented
out — and the run it starts issues five remote calls. -/
theorem C1_counterexample :
    (stC1.loading = true)
    ∧ ((action_refresh stC1).2 ≠ RefreshOutcome.rejected)
    ∧ ((refresh_run gwC1 [] stC1).1.calls
        = [RemoteCall.repoNameCall, RemoteCall.defaultBranchCall,
           RemoteCall.listBranchesCall, RemoteCall.mergedListCall,
           RemoteCall.closedListCall]) := by
  refine ⟨rfl, by decide, rfl⟩

/-- C1 (amended): `action_refresh` never consults the loading latch — in
every state, also while a run is active, it reports started (never the
rejection signal), clears the registry, keeps the selection, and the run it
starts issues at least one further remote call. -/
theorem C1_refresh_never_rejected (st : AppState) (gw : Gateway) (perm : List String) :
    ((action_refresh st).2 = RefreshOutcome.started)
    ∧ ((action_refresh st).1.branches_data = [])
    ∧ ((action_refresh st).1.selected_branches = st.selected_branches)
    ∧ ((refresh_run gw perm st).1.calls ≠ []) := by
  refine ⟨rfl, rfl, rfl, ?_⟩
  show (fetch_branches_background gw perm (action_refresh st).1).calls ≠ []
  unfold fetch_branches_background get_repo_info
  cases gw.repoNameResult with
  | none => simp
  | some rf =>
    cases gw.defaultBranchResult with
    | none => simp
    | some db => simp

/-- Counterexample to C2 as stated: with the listing call failing, the run
does not fail — it completes reporting zero loaded branches. -/
theorem C2_counterexample :
    (gwC2.listResult = none)
    ∧ ((fetch_branches_background gwC2 [] ({} : AppState)).status
        = RunStatus.loaded 0) :=
  ⟨rfl, rfl⟩

/-- C2 (amended): a failure or timeout of the branch-listing call is not
fatal — `_fetch_all_branches` degrades it to the empty name list, and the run
completes normally with zero branches, leaving the registry exactly as the
run found it; no error status is produced on this path. -/
theorem C2_listing_failure_not_fatal (gw : Gateway) (st : AppState)
    (perm : List String) (r d : String)
    (hr : gw.repoNameResult = some r) (hd : gw.defaultBranchResult = some d)
    (hl : gw.listResult = none) (hp : perm.Perm (fetch_all_branches gw)) :
    ((fetch_branches_background gw perm st).status = RunStatus.loaded 0)
    ∧ ((fetch_branches_background gw perm st).state.branches_data = st.branches_data)
    ∧ (fetch_all_branches gw = []) := by
  have hnil : fetch_all_branches gw = [] := by simp [fetch_all_branches, hl]
  have hpnil : perm = [] := List.perm_nil.mp (hnil ▸ hp)
  subst hpnil
  refine ⟨?_, ?_, hnil⟩
  · simp [fetch_branches_background, get_repo_info, hr, hd, fetch_branches, hnil]
  · simp [fetch_branches_background, get_repo_info, hr, hd, fetch_branches, hnil]

/-- Witness for C2's amended theorem on the concrete failing gateway. -/
theorem C2_listing_failure_not_fatal_witness :
    ((fetch_branches_background gwC2 [] ({} : AppState)).status = RunStatus.loaded 0)
    ∧ ((fetch_branches_background gwC2 [] ({} : AppState)).state.branches_data = []) :=
  ⟨(C2_listing_failure_not_fatal gwC2 {} [] "octo/repo" "main" rfl rfl rfl
      (by rw [show fetch_all_branches gwC2 = [] from rfl])).1,
   (C2_listing_failure_not_fatal gwC2 {} [] "octo/repo" "main" rfl rfl rfl
      (by rw [show fetch_all_branches gwC2 = [] from rfl])).2.1⟩
